import Mathlib

/-
Verification of the SBRA rate-adaptation engine and the ad-hoc MAC glue of
this ns-3.18 fork, shallowly embedded from
  src/ns-3.18.1/src/wifi/model/sbra-wifi-manager.cc
  src/ns-3.18.1/src/wifi/model/adhoc-wifi-mac.cc
Doubles of the C++ source are modelled as rationals (every IEEE double value
is a rational); the only irrational quantity, the dB-to-linear conversion
pow(10, x/10), is modelled over the reals.  The physical-layer delivery
model (WifiPhy::CalculatePdr) is an external collaborator and enters as a
function parameter.
-/

namespace NS3

/-- Code rates of a WifiMode, as in ns-3's enum WifiCodeRate
(the values the switch in GroupRateAdaptation distinguishes). -/
inductive WifiCodeRate
  | rate12
  | rate23
  | rate34
  | rate56
  | undef
deriving DecidableEq

/-- Modelled from the spec: the Mode descriptor (data rate in bit/s, coding
rate, PHY symbol rate).  The concrete mode catalog lives in ns-3's
wifi-phy.cc, outside src/; the fields are exactly the ones
SbraWifiManager::GroupRateAdaptation reads (GetDataRate, GetCodeRate,
GetPhyRate). -/
structure WifiMode where
  dataRate : Nat
  codeRate : WifiCodeRate
  phyRate : Nat
deriving DecidableEq

/-- Modelled from the spec: the 802.11a OFDM mode OfdmRate6Mbps (BPSK 1/2)
named in SbraWifiManager::AddOfdmRate; parameters from the ns-3 catalog. -/
def OfdmRate6Mbps : WifiMode := ⟨6000000, .rate12, 12000000⟩

/-- Modelled from the spec: OfdmRate9Mbps (BPSK 3/4). -/
def OfdmRate9Mbps : WifiMode := ⟨9000000, .rate34, 12000000⟩

/-- Modelled from the spec: OfdmRate12Mbps (QPSK 1/2). -/
def OfdmRate12Mbps : WifiMode := ⟨12000000, .rate12, 24000000⟩

/-- Modelled from the spec: OfdmRate18Mbps (QPSK 3/4). -/
def OfdmRate18Mbps : WifiMode := ⟨18000000, .rate34, 24000000⟩

/-- Modelled from the spec: OfdmRate24Mbps (16-QAM 1/2). -/
def OfdmRate24Mbps : WifiMode := ⟨24000000, .rate12, 48000000⟩

/-- Modelled from the spec: OfdmRate36Mbps (16-QAM 3/4). -/
def OfdmRate36Mbps : WifiMode := ⟨36000000, .rate34, 48000000⟩

/-- Modelled from the spec: OfdmRate48Mbps (64-QAM 2/3). -/
def OfdmRate48Mbps : WifiMode := ⟨48000000, .rate23, 72000000⟩

/-- Modelled from the spec: OfdmRate54Mbps (64-QAM 3/4). -/
def OfdmRate54Mbps : WifiMode := ⟨54000000, .rate34, 72000000⟩

/-- struct rxInfo: the feedback payload (fb-headers.h, read through
GetRssi/GetSnr/GetLossPacket/GetTotalPacket in adhoc-wifi-mac.cc). -/
structure RxInfo where
  Rssi : ℚ
  Snr : ℚ
  LossPacket : Nat
  TotalPacket : Nat
deriving DecidableEq

/-- The value of a freshly default-initialized rxInfo (the entry UpdateInfo
appends carries this, since the field copies are commented out in the
source). -/
def defaultRxInfo : RxInfo := ⟨0, 0, 0, 0⟩

/-- struct StaInfo: one feedback sample per peer address, as stored in
SbraWifiManager::m_infos.  Mac48Address is modelled as Nat. -/
structure StaInfo where
  addr : Nat
  info : RxInfo
deriving DecidableEq

/-- State of SbraWifiManager: the members sbra-wifi-manager.cc reads and
writes.  m_minSnr is a real because GroupRateAdaptation stores
pow(10, dB/10) into it. -/
structure SbraWifiManagerState where
  addBasicMode : Bool
  basicModes : List WifiMode
  thresholds : List (ℚ × WifiMode)
  defaultMode : WifiMode
  infos : List StaInfo
  GroupTxMode : WifiMode
  GroupTxMcs : Nat
  minSnr : ℝ
  sum_min_snr : ℚ
  sum_tx_mode : ℚ
  sum_tx_mcs : ℚ
  num : Nat
  per : ℚ
  type : Nat

/-- SbraWifiRemoteStation: per-peer record, only m_lastSnr. -/
structure SbraWifiRemoteStation where
  lastSnr : ℚ
deriving DecidableEq

/-- SbraWifiManager::DoReportRxOk: empty body. -/
def DoReportRxOk (station : SbraWifiRemoteStation) (rxSnr : ℚ)
    (txMode : WifiMode) : SbraWifiRemoteStation :=
  station

/-- SbraWifiManager::DoReportRtsFailed: empty body. -/
def DoReportRtsFailed (station : SbraWifiRemoteStation) : SbraWifiRemoteStation :=
  station

/-- SbraWifiManager::DoReportDataFailed: empty body. -/
def DoReportDataFailed (station : SbraWifiRemoteStation) : SbraWifiRemoteStation :=
  station

/-- SbraWifiManager::DoReportRtsOk: m_lastSnr := rtsSnr. -/
def DoReportRtsOk (station : SbraWifiRemoteStation) (ctsSnr : ℚ)
    (ctsMode : WifiMode) (rtsSnr : ℚ) : SbraWifiRemoteStation :=
  { station with lastSnr := rtsSnr }

/-- SbraWifiManager::DoReportDataOk: m_lastSnr := dataSnr. -/
def DoReportDataOk (station : SbraWifiRemoteStation) (ackSnr : ℚ)
    (ackMode : WifiMode) (dataSnr : ℚ) : SbraWifiRemoteStation :=
  { station with lastSnr := dataSnr }

/-- SbraWifiManager::DoReportFinalRtsFailed: empty body. -/
def DoReportFinalRtsFailed (station : SbraWifiRemoteStation) : SbraWifiRemoteStation :=
  station

/-- SbraWifiManager::DoReportFinalDataFailed: empty body. -/
def DoReportFinalDataFailed (station : SbraWifiRemoteStation) : SbraWifiRemoteStation :=
  station

/-- The existence scan of SbraWifiManager::UpdateInfo: whether some stored
entry has the given address (the loop sets exist and breaks at the first
match). -/
def containsAddr : List StaInfo → Nat → Bool
  | [], _ => false
  | x :: xs, addr => if x.addr = addr then true else containsAddr xs addr

/-- The overwrite loop of SbraWifiManager::UpdateInfo: the first entry whose
address matches gets its info replaced, then the loop breaks. -/
def updateExisting (addr : Nat) (info : RxInfo) : List StaInfo → List StaInfo
  | [] => []
  | x :: xs =>
    if x.addr = addr then { x with info := info } :: xs
    else x :: updateExisting addr info xs

/-- SbraWifiManager::UpdateInfo (lines 354-380): overwrite the first entry
with a matching address; otherwise append a StaInfo carrying only the
address (the four copies into the fresh entry are commented out in the
source, so it keeps the default-initialized rxInfo). -/
def UpdateInfo (s : SbraWifiManagerState) (addr : Nat) (info : RxInfo) :
    SbraWifiManagerState :=
  if containsAddr s.infos addr then
    { s with infos := updateExisting addr info s.infos }
  else
    { s with infos := s.infos ++ [⟨addr, defaultRxInfo⟩] }

/-- SbraWifiManager::AddOfdmRate: registers the eight OFDM basic modes in
order and sets m_addBasicMode (AddBasicMode appends to the basic rate
set). -/
def AddOfdmRate (s : SbraWifiManagerState) : SbraWifiManagerState :=
  { s with
      basicModes := s.basicModes ++
        [OfdmRate6Mbps, OfdmRate9Mbps, OfdmRate12Mbps, OfdmRate18Mbps,
         OfdmRate24Mbps, OfdmRate36Mbps, OfdmRate48Mbps, OfdmRate54Mbps],
      addBasicMode := true }

/-- The lazy catalog-population guard at the top of
SbraWifiManager::GroupRateAdaptation: AddOfdmRate runs if m_addBasicMode is
still false. -/
def afterModeInit (s : SbraWifiManagerState) : SbraWifiManagerState :=
  if s.addBasicMode = false then AddOfdmRate s else s

/-- WifiRemoteStationManager::GetBasicMode: the i-th registered basic mode
(the source asserts i is in range; out-of-range is modelled by a dummy). -/
def GetBasicMode (s : SbraWifiManagerState) (i : Nat) : WifiMode :=
  s.basicModes.getD i ⟨0, .undef, 0⟩

/-- The minimum scan of GroupRateAdaptation (lines 177-184): start from
m_infos[0].info.Rssi and lower the running minimum whenever a sample's Rssi
is smaller (the loop re-visits index 0, a no-op). -/
def minRssiOf (infos : List StaInfo) : ℚ :=
  infos.foldl (fun acc x => if acc > x.info.Rssi then x.info.Rssi else acc)
    ((infos.headD ⟨0, defaultRxInfo⟩).info.Rssi)

/-- The coderate chain of GroupRateAdaptation (lines 201-209): 1.0 unless
the mode's code rate matches one of the four listed cases. -/
def coderateOf : WifiCodeRate → ℚ
  | .rate34 => 3/4
  | .rate23 => 2/3
  | .rate12 => 1/2
  | .rate56 => 5/6
  | .undef => 1

/-- The coded-bits-per-OFDM-symbol chain of GroupRateAdaptation (lines
211-219): keyed on the mode's PHY rate, defaulting to 48. -/
def ofdmbitsOf (m : WifiMode) : Nat :=
  if m.phyRate = 12000000 then 48
  else if m.phyRate = 24000000 then 96
  else if m.phyRate = 48000000 then 192
  else if m.phyRate = 72000000 then 288
  else 48

/-- The frame-bit computation of GroupRateAdaptation (lines 221-223):
databits 1000, nSymbols = ((databits+64)*8+22)/coderate/ofdmbits computed in
double (exact here, with the same integer outcome for every catalog mode),
truncated and incremented, times ofdmbits. -/
def nbitsOf (m : WifiMode) : Nat :=
  let databits : Nat := 1000
  let nSymbols : ℚ :=
    (((databits + 64) * 8 + 22 : Nat) : ℚ) / coderateOf m.codeRate /
      (ofdmbitsOf m : ℚ)
  (Int.toNat ⌊nSymbols⌋ + 1) * ofdmbitsOf m

/-- The dB-to-linear conversion of GroupRateAdaptation (line 190):
std::pow (10.0, x / 10.0). -/
noncomputable def dbToLinear (x : ℚ) : ℝ := (10 : ℝ) ^ ((x : ℝ) / 10)

theorem one_lt_dbToLinear_iff (x : ℚ) : 1 < dbToLinear x ↔ 0 < x := by
  unfold dbToLinear
  rw [Real.one_lt_rpow_iff_of_pos (by norm_num)]
  constructor
  · rintro (⟨-, h⟩ | ⟨h, -⟩)
    · have hx : (0 : ℝ) < (x : ℝ) := by linarith
      exact_mod_cast hx
    · norm_num at h
  · intro h
    left
    refine ⟨by norm_num, ?_⟩
    have hx : (0 : ℝ) < (x : ℝ) := by exact_mod_cast h
    linarith

instance decOneLtDbToLinear (x : ℚ) : Decidable (1 < dbToLinear x) :=
  decidable_of_iff (0 < x) (one_lt_dbToLinear_iff x).symm

/-- The type-0 loop of GroupRateAdaptation (lines 196-232): each mode whose
loss probability tempPer = 1 - Pdr is strictly below m_per overwrites the
pair (m_GroupTxMode, Per); the comparison is against m_per, not against the
running Per.  The accumulator models (m_GroupTxMode, Per). -/
def typeZeroFold (pdr : WifiMode → ℝ → Nat → ℚ) (lin : ℝ) (per : ℚ) :
    List WifiMode → WifiMode × ℚ → WifiMode × ℚ
  | [], acc => acc
  | mode :: ms, acc =>
    let tempPer := 1 - pdr mode lin (nbitsOf mode)
    typeZeroFold pdr lin per ms (if tempPer < per then (mode, tempPer) else acc)

/-- The data-rate-to-MCS switch of GroupRateAdaptation (lines 241-259); a
rate outside the eight cases leaves m_GroupTxMcs unchanged. -/
def mcsSwitch (tmp : Nat) (old : Nat) : Nat :=
  if tmp = 6 then 0
  else if tmp = 9 then 1
  else if tmp = 12 then 2
  else if tmp = 18 then 3
  else if tmp = 24 then 4
  else if tmp = 36 then 5
  else if tmp = 48 then 6
  else if tmp = 54 then 7
  else old

/-- The type-0 branch of GroupRateAdaptation after the loop: the dead
NS_ASSERT when Per > 1 (NS_ASSERT on a string literal never aborts), the
fallback to basic mode 0 when Per stayed exactly 1, the MCS switch and the
statistics updates. -/
def typeZeroBody (pdr : WifiMode → ℝ → Nat → ℚ) (lin : ℝ)
    (s : SbraWifiManagerState) : SbraWifiManagerState :=
  let r := typeZeroFold pdr lin s.per s.basicModes (s.GroupTxMode, 1)
  let s1 := { s with GroupTxMode := r.1 }
  let s2 :=
    if 1 < r.2 then s1
    else if r.2 = 1 then { s1 with GroupTxMode := GetBasicMode s1 0 } else s1
  let mcs := mcsSwitch (s2.GroupTxMode.dataRate / 1000000) s2.GroupTxMcs
  { s2 with
      GroupTxMcs := mcs,
      sum_tx_mode := s2.sum_tx_mode + (s2.GroupTxMode.dataRate : ℚ) * (1 / 1000000),
      sum_tx_mcs := s2.sum_tx_mcs + (mcs : ℚ),
      num := s2.num + 1 }

/-- The type-1 loop of GroupRateAdaptation (lines 271-287): expected
throughput PdrRate = Pdr * Rate * 0.000001 at a fixed 1086-byte frame; a
mode replaces the accumulator (m_GroupTxMode, maxPdrRate) only when strictly
larger. -/
def typeOneFold (pdr : WifiMode → ℝ → Nat → ℚ) (lin : ℝ) :
    List WifiMode → WifiMode × ℚ → WifiMode × ℚ
  | [], acc => acc
  | mode :: ms, acc =>
    let pdrRate := pdr mode lin (1086 * 8) * (mode.dataRate : ℚ) * (1 / 1000000)
    typeOneFold pdr lin ms (if acc.2 < pdrRate then (mode, pdrRate) else acc)

/-- The type-1 branch of GroupRateAdaptation: the loop, then fallback to
basic mode 0 when maxPdrRate is exactly 0. -/
def typeOneBody (pdr : WifiMode → ℝ → Nat → ℚ) (lin : ℝ)
    (s : SbraWifiManagerState) : SbraWifiManagerState :=
  let r := typeOneFold pdr lin s.basicModes (s.GroupTxMode, 0)
  let s1 := { s with GroupTxMode := r.1 }
  if r.2 = 0 then { s1 with GroupTxMode := GetBasicMode s1 0 } else s1

/-- SbraWifiManager::GroupRateAdaptation (lines 163-299).  The external
delivery model WifiPhy::CalculatePdr enters as the parameter pdr(mode,
snrLinear, nbits).  Structure: lazy catalog population; mode 0 on an empty
sample set; otherwise the Rssi minimum (accumulated in dB into
m_sum_min_snr), dB-to-linear conversion stored into m_minSnr, the
type-0/type-1 branch when the linear SNR exceeds 1, and mode 0 otherwise. -/
noncomputable def GroupRateAdaptation (pdr : WifiMode → ℝ → Nat → ℚ)
    (s0 : SbraWifiManagerState) : SbraWifiManagerState :=
  let s := afterModeInit s0
  if s.infos.length = 0 then
    { s with GroupTxMode := GetBasicMode s 0 }
  else
    let minDb := minRssiOf s.infos
    let s1 := { s with sum_min_snr := s.sum_min_snr + minDb, minSnr := dbToLinear minDb }
    if 1 < dbToLinear minDb then
      if s1.type = 0 then typeZeroBody pdr (dbToLinear minDb) s1
      else if s1.type = 1 then typeOneBody pdr (dbToLinear minDb) s1
      else s1
    else { s1 with GroupTxMode := GetBasicMode s1 0 }

/-- SbraWifiManager::GetSnrThreshold (lines 81-93): linear scan of
m_thresholds for the mode; the never-registered case (NS_ASSERT (false) in a
debug build) is modelled by the source's fall-through return 0.0. -/
def GetSnrThreshold : List (ℚ × WifiMode) → WifiMode → ℚ
  | [], _ => 0
  | p :: ps, mode => if p.2 = mode then p.1 else GetSnrThreshold ps mode

/-- The selection loop of SbraWifiManager::DoGetRtsTxVector (lines 340-350):
a basic mode replaces the accumulator (maxThreshold, maxMode) when its
threshold is strictly above the running maximum and strictly below the
station's m_lastSnr. -/
def rtsFold (thresholds : List (ℚ × WifiMode)) (lastSnr : ℚ) :
    List WifiMode → ℚ × WifiMode → ℚ × WifiMode
  | [], acc => acc
  | mode :: ms, acc =>
    let threshold := GetSnrThreshold thresholds mode
    rtsFold thresholds lastSnr ms
      (if threshold > acc.1 ∧ threshold < lastSnr then (threshold, mode) else acc)

/-- SbraWifiManager::DoGetRtsTxVector (lines 331-352), the mode component of
the returned WifiTxVector: the loop starts from (0.0, GetDefaultMode ()). -/
def DoGetRtsTxVector (s : SbraWifiManagerState)
    (station : SbraWifiRemoteStation) : WifiMode :=
  (rtsFold s.thresholds station.lastSnr s.basicModes (0, s.defaultMode)).2

/-- Result of AdhocWifiMac::Enqueue on the QoS path: the tid actually used,
whether NS_ASSERT (tid < 8) fired (true would abort), and whether the packet
went to the per-AC QoS queue (m_edca) rather than m_dca. -/
structure EnqueueResult where
  tid : Nat
  asserted : Bool
  qosQueued : Bool
deriving DecidableEq

/-- AdhocWifiMac::Enqueue (lines 130-206), the tid handling: with QoS, the
extracted tid is reverted to 0 whenever tid >= 7, then NS_ASSERT (tid < 8)
is checked and the packet queued on m_edca; without QoS, tid 0 and m_dca. -/
def Enqueue (qosSupported : Bool) (packetTid : Nat) : EnqueueResult :=
  if qosSupported then
    let tid0 := packetTid
    let tid := if 7 ≤ tid0 then 0 else tid0
    { tid := tid, asserted := ! decide (tid < 8), qosQueued := true }
  else
    { tid := 0, asserted := false, qosQueued := false }

section UpdateInfoLemmas

theorem containsAddr_updateExisting (l : List StaInfo) (a a' : Nat) (i : RxInfo) :
    containsAddr (updateExisting a i l) a' = containsAddr l a' := by
  induction l with
  | nil => rfl
  | cons x xs ih =>
    by_cases h : x.addr = a
    · simp [updateExisting, h, containsAddr]
    · rw [updateExisting, if_neg h, containsAddr, containsAddr, ih]

theorem length_updateExisting (l : List StaInfo) (a : Nat) (i : RxInfo) :
    (updateExisting a i l).length = l.length := by
  induction l with
  | nil => rfl
  | cons x xs ih =>
    by_cases h : x.addr = a
    · simp [updateExisting, h]
    · simp [updateExisting, h, ih]

theorem updateExisting_idem (l : List StaInfo) (a : Nat) (i : RxInfo) :
    updateExisting a i (updateExisting a i l) = updateExisting a i l := by
  induction l with
  | nil => rfl
  | cons x xs ih =>
    by_cases h : x.addr = a
    · simp [updateExisting, h]
    · simp [updateExisting, h, ih]

theorem containsAddr_append_self (l : List StaInfo) (a : Nat) (d : RxInfo) :
    containsAddr (l ++ [⟨a, d⟩]) a = true := by
  induction l with
  | nil => simp [containsAddr]
  | cons x xs ih =>
    by_cases h : x.addr = a
    · simp [containsAddr, h]
    · simp [containsAddr, h, ih]

theorem UpdateInfo_found (s : SbraWifiManagerState) (a : Nat) (i : RxInfo)
    (h : containsAddr s.infos a = true) :
    UpdateInfo s a i = { s with infos := updateExisting a i s.infos } := by
  unfold UpdateInfo
  rw [h]
  simp

theorem UpdateInfo_notFound (s : SbraWifiManagerState) (a : Nat) (i : RxInfo)
    (h : containsAddr s.infos a = false) :
    UpdateInfo s a i = { s with infos := s.infos ++ [⟨a, defaultRxInfo⟩] } := by
  unfold UpdateInfo
  rw [h]
  simp

theorem containsAddr_after_update (s : SbraWifiManagerState) (a : Nat) (i : RxInfo) :
    containsAddr (UpdateInfo s a i).infos a = true := by
  by_cases h : containsAddr s.infos a = true
  · rw [UpdateInfo_found s a i h]
    simpa [containsAddr_updateExisting] using h
  · have h' : containsAddr s.infos a = false := by simpa using h
    rw [UpdateInfo_notFound s a i h']
    exact containsAddr_append_self s.infos a defaultRxInfo

theorem updateExisting_append_fresh (l : List StaInfo) (a : Nat) (i d : RxInfo)
    (h : containsAddr l a = false) :
    updateExisting a i (l ++ [⟨a, d⟩]) = l ++ [⟨a, i⟩] := by
  induction l with
  | nil => simp [updateExisting]
  | cons x xs ih =>
    rw [containsAddr] at h
    by_cases hx : x.addr = a
    · rw [if_pos hx] at h
      exact absurd h (by simp)
    · rw [if_neg hx] at h
      simp [updateExisting, hx, ih h]

end UpdateInfoLemmas

/-- Claim C3 counterexample input: a sample whose fields differ from the
default-initialized rxInfo. -/
def c3Info : RxInfo := ⟨5, 6, 7, 8⟩

/-- A manager state as freshly constructed (SbraWifiManager's constructor
plus the attribute defaults PerThreshold 0.001 and Type 0): modes not yet
populated, no samples. -/
def freshManagerState : SbraWifiManagerState :=
  { addBasicMode := false, basicModes := [], thresholds := [],
    defaultMode := OfdmRate6Mbps, infos := [], GroupTxMode := OfdmRate6Mbps,
    GroupTxMcs := 0, minSnr := 0, sum_min_snr := 0, sum_tx_mode := 0,
    sum_tx_mcs := 0, num := 0, per := 1/1000, type := 0 }

/-- Claim C3 counterexample state: no entry for address 1 yet. -/
def c3FreshState : SbraWifiManagerState := freshManagerState

/-- Claim C3 is false as stated: starting from a state with no entry for
address 1, the first UpdateInfo call appends an entry with the
default-initialized rxInfo, and the second identical call overwrites that
entry with the provided sample, changing the stored contents. -/
theorem C3_counterexample :
    (UpdateInfo (UpdateInfo c3FreshState 1 c3Info) 1 c3Info).infos ≠
      (UpdateInfo c3FreshState 1 c3Info).infos := by
  decide

/-- Claim C3 amended: a repeated UpdateInfo call with the same (address,
sample) pair leaves the entry count unchanged; it moreover leaves the entry
contents unchanged (is a no-op) provided an entry for that address already
existed before the first call.  (When the first call freshly appended the
entry, the second call fills in the sample the first call left
default-initialized.) -/
theorem C3_updateInfo_idempotent (s : SbraWifiManagerState) (a : Nat) (i : RxInfo) :
    (UpdateInfo (UpdateInfo s a i) a i).infos.length =
      (UpdateInfo s a i).infos.length ∧
    (containsAddr s.infos a = true →
      UpdateInfo (UpdateInfo s a i) a i = UpdateInfo s a i) := by
  have hc : containsAddr (UpdateInfo s a i).infos a = true :=
    containsAddr_after_update s a i
  have e2 := UpdateInfo_found (UpdateInfo s a i) a i hc
  constructor
  · rw [e2]
    simp [length_updateExisting]
  · intro h
    have e1 := UpdateInfo_found s a i h
    rw [e2, e1]
    simp [updateExisting_idem]

/-- Claim C3 amended, witness: with an entry for address 1 already present,
the second identical UpdateInfo call is a no-op. -/
theorem C3_witness :
    (UpdateInfo (UpdateInfo (UpdateInfo c3FreshState 1 c3Info) 1 c3Info) 1 c3Info).infos.length =
      (UpdateInfo (UpdateInfo c3FreshState 1 c3Info) 1 c3Info).infos.length ∧
    UpdateInfo (UpdateInfo (UpdateInfo c3FreshState 1 c3Info) 1 c3Info) 1 c3Info =
      UpdateInfo (UpdateInfo c3FreshState 1 c3Info) 1 c3Info :=
  ⟨(C3_updateInfo_idempotent (UpdateInfo c3FreshState 1 c3Info) 1 c3Info).1,
    (C3_updateInfo_idempotent (UpdateInfo c3FreshState 1 c3Info) 1 c3Info).2 (by decide)⟩

/-- Claim C4: when no entry for the address exists, UpdateInfo appends an
entry carrying only the address with a default-initialized rxInfo (the
provided sample's fields are not copied), and the provided sample is stored
only by a later call, once the entry exists. -/
theorem C4_fresh_append_keeps_default (s : SbraWifiManagerState) (a : Nat)
    (i : RxInfo) (h : containsAddr s.infos a = false) :
    (UpdateInfo s a i).infos = s.infos ++ [⟨a, defaultRxInfo⟩] ∧
    (UpdateInfo (UpdateInfo s a i) a i).infos = s.infos ++ [⟨a, i⟩] := by
  have h1 : (UpdateInfo s a i).infos = s.infos ++ [⟨a, defaultRxInfo⟩] := by
    rw [UpdateInfo_notFound s a i h]
  refine ⟨h1, ?_⟩
  have hc : containsAddr (UpdateInfo s a i).infos a = true :=
    containsAddr_after_update s a i
  rw [UpdateInfo_found (UpdateInfo s a i) a i hc]
  show updateExisting a i (UpdateInfo s a i).infos = s.infos ++ [⟨a, i⟩]
  rw [h1]
  exact updateExisting_append_fresh s.infos a i defaultRxInfo h

/-- Claim C4 witness: concrete fresh address. -/
theorem C4_witness :
    (UpdateInfo c3FreshState 2 ⟨9, 9, 9, 9⟩).infos =
      c3FreshState.infos ++ [⟨2, defaultRxInfo⟩] ∧
    (UpdateInfo (UpdateInfo c3FreshState 2 ⟨9, 9, 9, 9⟩) 2 ⟨9, 9, 9, 9⟩).infos =
      c3FreshState.infos ++ [⟨2, ⟨9, 9, 9, 9⟩⟩] :=
  C4_fresh_append_keeps_default c3FreshState 2 ⟨9, 9, 9, 9⟩ (by decide)

/-- Claim C6 is false as stated: a QoS enqueue with extracted tid 8 does not
abort; the tid is reverted to 0 before the assertion, the assertion passes,
and the packet is queued on the QoS queue. -/
theorem C6_counterexample :
    (Enqueue true 8).asserted = false ∧ (Enqueue true 8).qosQueued = true ∧
      (Enqueue true 8).tid = 0 := by
  decide

/-- Claim C6 amended: for every QoS-enabled enqueue with extracted tid at
least 8 (indeed at least 7), the tid is reverted to 0 and the packet is
queued normally on the AC mapped from tid 0; the NS_ASSERT (tid < 8) check
passes, so no abort occurs. -/
theorem C6_tid_reverted_to_zero (t : Nat) (h : 8 ≤ t) :
    Enqueue true t = ⟨0, false, true⟩ := by
  unfold Enqueue
  have h7 : 7 ≤ t := by omega
  simp [h7]

/-- Claim C6 amended, witness at tid 11. -/
theorem C6_witness : Enqueue true 11 = ⟨0, false, true⟩ :=
  C6_tid_reverted_to_zero 11 (by decide)

/-- Claim C10: the success handlers for the RTS/CTS exchange and the
data/ack exchange set lastSnr to the SNR observed in that exchange, with the
last write winning, while every failure handler and the plain receive-OK
handler leave the station record unchanged. -/
theorem C10_report_handlers (st : SbraWifiRemoteStation) (a b r d x : ℚ)
    (m1 m2 m3 : WifiMode) :
    (DoReportRtsOk st a m1 r).lastSnr = r ∧
    (DoReportDataOk st b m2 d).lastSnr = d ∧
    (DoReportDataOk (DoReportRtsOk st a m1 r) b m2 d).lastSnr = d ∧
    (DoReportRtsOk (DoReportDataOk st b m2 d) a m1 r).lastSnr = r ∧
    DoReportRtsFailed st = st ∧
    DoReportDataFailed st = st ∧
    DoReportFinalRtsFailed st = st ∧
    DoReportFinalDataFailed st = st ∧
    DoReportRxOk st x m3 = st :=
  ⟨rfl, rfl, rfl, rfl, rfl, rfl, rfl, rfl, rfl⟩

section GroupRateAdaptationLemmas

theorem afterModeInit_infos (s : SbraWifiManagerState) :
    (afterModeInit s).infos = s.infos := by
  unfold afterModeInit AddOfdmRate
  split <;> rfl

theorem afterModeInit_per (s : SbraWifiManagerState) :
    (afterModeInit s).per = s.per := by
  unfold afterModeInit AddOfdmRate
  split <;> rfl

theorem afterModeInit_type (s : SbraWifiManagerState) :
    (afterModeInit s).type = s.type := by
  unfold afterModeInit AddOfdmRate
  split <;> rfl

theorem mem_of_getLast?_eq_some {α : Type} {l : List α} {m : α}
    (h : l.getLast? = some m) : m ∈ l := by
  rcases List.mem_getLast?_eq_getLast (Option.mem_def.mpr h) with ⟨hne, hEq⟩
  rw [hEq]
  exact List.getLast_mem hne

/-- Whether a mode passes the per-threshold test of the type-0 loop. -/
def typeZeroQualifies (pdr : WifiMode → ℝ → Nat → ℚ) (lin : ℝ) (per : ℚ)
    (m : WifiMode) : Bool :=
  decide (1 - pdr m lin (nbitsOf m) < per)

theorem typeZeroFold_spec (pdr : WifiMode → ℝ → Nat → ℚ) (lin : ℝ) (per : ℚ)
    (l : List WifiMode) (acc : WifiMode × ℚ) :
    (l.filter (typeZeroQualifies pdr lin per) = [] ∧
      typeZeroFold pdr lin per l acc = acc) ∨
    (∃ m, (l.filter (typeZeroQualifies pdr lin per)).getLast? = some m ∧
      typeZeroFold pdr lin per l acc = (m, 1 - pdr m lin (nbitsOf m))) := by
  induction l generalizing acc with
  | nil => exact Or.inl ⟨rfl, rfl⟩
  | cons mode ms ih =>
    by_cases h : 1 - pdr mode lin (nbitsOf mode) < per
    · have hq : typeZeroQualifies pdr lin per mode = true := by
        simp [typeZeroQualifies, h]
      rcases ih (mode, 1 - pdr mode lin (nbitsOf mode)) with ⟨hfil, heq⟩ | ⟨m, hlast, heq⟩
      · refine Or.inr ⟨mode, ?_, ?_⟩
        · rw [List.filter_cons_of_pos hq, hfil]
          rfl
        · simp only [typeZeroFold]
          rw [if_pos h, heq]
      · refine Or.inr ⟨m, ?_, ?_⟩
        · rw [List.filter_cons_of_pos hq]
          cases hfm : ms.filter (typeZeroQualifies pdr lin per) with
          | nil => rw [hfm] at hlast; exact absurd hlast (by simp)
          | cons b bs =>
            rw [hfm] at hlast
            rw [List.getLast?_cons_cons, hlast]
        · simp only [typeZeroFold]
          rw [if_pos h, heq]
    · have hq : ¬ typeZeroQualifies pdr lin per mode = true := by
        simp [typeZeroQualifies, h]
      rcases ih acc with ⟨hfil, heq⟩ | ⟨m, hlast, heq⟩
      · refine Or.inl ⟨?_, ?_⟩
        · rw [List.filter_cons_of_neg hq, hfil]
        · simp only [typeZeroFold]
          rw [if_neg h, heq]
      · refine Or.inr ⟨m, ?_, ?_⟩
        · rw [List.filter_cons_of_neg hq, hlast]
        · simp only [typeZeroFold]
          rw [if_neg h, heq]

theorem typeZeroBody_GroupTxMode (pdr : WifiMode → ℝ → Nat → ℚ) (lin : ℝ)
    (s : SbraWifiManagerState) (hper : s.per ≤ 1) :
    (s.basicModes.filter (typeZeroQualifies pdr lin s.per) = [] ∧
      (typeZeroBody pdr lin s).GroupTxMode = GetBasicMode s 0) ∨
    (∃ m, (s.basicModes.filter (typeZeroQualifies pdr lin s.per)).getLast? = some m ∧
      (typeZeroBody pdr lin s).GroupTxMode = m) := by
  rcases typeZeroFold_spec pdr lin s.per s.basicModes (s.GroupTxMode, 1) with
    ⟨hfil, heq⟩ | ⟨m, hlast, heq⟩
  · refine Or.inl ⟨hfil, ?_⟩
    simp only [typeZeroBody, heq]
    norm_num [GetBasicMode]
  · have hmem : m ∈ s.basicModes.filter (typeZeroQualifies pdr lin s.per) :=
      mem_of_getLast?_eq_some hlast
    have hq : typeZeroQualifies pdr lin s.per m = true := (List.mem_filter.mp hmem).2
    have hlt : 1 - pdr m lin (nbitsOf m) < s.per := by
      simpa [typeZeroQualifies] using hq
    have h1 : ¬ (1 < 1 - pdr m lin (nbitsOf m)) := by linarith
    have h2 : ¬ (1 - pdr m lin (nbitsOf m) = 1) := by
      intro hEq
      rw [hEq] at hlt
      linarith
    refine Or.inr ⟨m, hlast, ?_⟩
    simp only [typeZeroBody, heq]
    simp [h1, h2]

/-- The state after the minimum scan and dB accumulation of
GroupRateAdaptation, just before the algorithm branch. -/
noncomputable def stateAfterMin (s : SbraWifiManagerState) : SbraWifiManagerState :=
  { afterModeInit s with
      sum_min_snr := (afterModeInit s).sum_min_snr + minRssiOf s.infos,
      minSnr := dbToLinear (minRssiOf s.infos) }

theorem stateAfterMin_type (s : SbraWifiManagerState) :
    (stateAfterMin s).type = s.type := by
  show (afterModeInit s).type = s.type
  exact afterModeInit_type s

theorem stateAfterMin_per (s : SbraWifiManagerState) :
    (stateAfterMin s).per = s.per := by
  show (afterModeInit s).per = s.per
  exact afterModeInit_per s

theorem GroupRateAdaptation_empty (pdr : WifiMode → ℝ → Nat → ℚ)
    (s : SbraWifiManagerState) (h : s.infos = []) :
    GroupRateAdaptation pdr s =
      { afterModeInit s with GroupTxMode := GetBasicMode (afterModeInit s) 0 } := by
  simp only [GroupRateAdaptation]
  rw [if_pos]
  rw [afterModeInit_infos, h]
  rfl

theorem GroupRateAdaptation_nonempty (pdr : WifiMode → ℝ → Nat → ℚ)
    (s : SbraWifiManagerState) (h0 : s.infos ≠ []) :
    GroupRateAdaptation pdr s =
      if 1 < dbToLinear (minRssiOf s.infos) then
        (if (stateAfterMin s).type = 0 then
          typeZeroBody pdr (dbToLinear (minRssiOf s.infos)) (stateAfterMin s)
         else if (stateAfterMin s).type = 1 then
          typeOneBody pdr (dbToLinear (minRssiOf s.infos)) (stateAfterMin s)
         else stateAfterMin s)
      else { stateAfterMin s with GroupTxMode := GetBasicMode (stateAfterMin s) 0 } := by
  have hne : ¬ ((afterModeInit s).infos.length = 0) := by
    rw [afterModeInit_infos]
    simpa [List.length_eq_zero] using h0
  simp only [GroupRateAdaptation]
  rw [if_neg hne,
    show minRssiOf (afterModeInit s).infos = minRssiOf s.infos from by
      rw [afterModeInit_infos]]
  rfl

end GroupRateAdaptationLemmas

/-- The all-zero delivery model used as a concrete external collaborator in
witnesses. -/
def pdrZero : WifiMode → ℝ → Nat → ℚ := fun _ _ _ => 0

/-- Claim C8: with an empty feedback-sample collection, the group-mode
recomputation deterministically selects catalog mode index 0, for either
adaptation type. -/
theorem C8_empty_samples_mode0 (pdr : WifiMode → ℝ → Nat → ℚ)
    (s : SbraWifiManagerState) (h : s.infos = []) :
    (GroupRateAdaptation pdr s).GroupTxMode = GetBasicMode (afterModeInit s) 0 := by
  rw [GroupRateAdaptation_empty pdr s h]

/-- Claim C8 witness: the fresh manager state has no samples and the
recomputation yields basic mode 0 (OfdmRate6Mbps after catalog
population). -/
theorem C8_witness :
    (GroupRateAdaptation pdrZero freshManagerState).GroupTxMode =
      GetBasicMode (afterModeInit freshManagerState) 0 :=
  C8_empty_samples_mode0 pdrZero freshManagerState rfl

/-- Claim C2 counterexample state: a previously selected group mode
OfdmRate9Mbps and a single sample whose signal strength -3 dB converts to a
linear SNR below 1. -/
def c2State : SbraWifiManagerState :=
  { freshManagerState with
      GroupTxMode := OfdmRate9Mbps,
      infos := [⟨5, ⟨-3, 0, 0, 0⟩⟩] }

/-- Claim C2 is false as stated: with linear minimum SNR at most 1 the
recomputation does not retain the previously selected group mode
(OfdmRate9Mbps); it resets it to catalog mode index 0 (OfdmRate6Mbps). -/
theorem C2_counterexample :
    c2State.GroupTxMode = OfdmRate9Mbps ∧
    (GroupRateAdaptation pdrZero c2State).GroupTxMode = OfdmRate6Mbps ∧
    OfdmRate6Mbps ≠ OfdmRate9Mbps := by
  refine ⟨rfl, ?_, by decide⟩
  have h0 : c2State.infos ≠ [] := by decide
  have hsnr : ¬ 1 < dbToLinear (minRssiOf c2State.infos) := by
    rw [one_lt_dbToLinear_iff]
    decide
  rw [GroupRateAdaptation_nonempty pdrZero c2State h0, if_neg hsnr]
  rfl

/-- Claim C2 amended: with a non-empty sample set whose minimum signal
strength converts to a linear SNR at most 1, the recomputation sets the
selected group mode to catalog mode index 0 (rather than leaving it
unchanged). -/
theorem C2_lowSnr_resets_to_mode0 (pdr : WifiMode → ℝ → Nat → ℚ)
    (s : SbraWifiManagerState) (h0 : s.infos ≠ [])
    (hsnr : dbToLinear (minRssiOf s.infos) ≤ 1) :
    (GroupRateAdaptation pdr s).GroupTxMode = GetBasicMode (afterModeInit s) 0 := by
  rw [GroupRateAdaptation_nonempty pdr s h0, if_neg (not_lt.mpr hsnr)]
  rfl

/-- Claim C2 amended, witness at the concrete low-SNR state. -/
theorem C2_witness :
    (GroupRateAdaptation pdrZero c2State).GroupTxMode =
      GetBasicMode (afterModeInit c2State) 0 :=
  C2_lowSnr_resets_to_mode0 pdrZero c2State (by decide)
    (not_lt.mp (by rw [one_lt_dbToLinear_iff]; decide))

/-- Claim C1 counterexample delivery model: mode OfdmRate6Mbps has loss
probability 1/10000, mode OfdmRate54Mbps has 5/10000 (both strictly below
the 0.001 ceiling, the first strictly smaller), all others 1/2. -/
def c1Pdr : WifiMode → ℝ → Nat → ℚ := fun m _ _ =>
  if m.dataRate = 6000000 then 9999/10000
  else if m.dataRate = 54000000 then 9995/10000
  else 1/2

/-- Claim C1 counterexample state: one sample at 20 dB, type 0,
perThreshold 0.001. -/
def c1State : SbraWifiManagerState :=
  { freshManagerState with infos := [⟨5, ⟨20, 0, 0, 0⟩⟩] }

theorem c1State_snr : 1 < dbToLinear (minRssiOf c1State.infos) := by
  rw [one_lt_dbToLinear_iff]
  norm_num [minRssiOf, c1State, freshManagerState]

/-- Claim C1 is false as stated: at this input both OfdmRate6Mbps and
OfdmRate54Mbps pass the perThreshold ceiling and OfdmRate6Mbps has the
strictly smaller loss probability, yet the recomputation selects
OfdmRate54Mbps - the loop keeps the last qualifying catalog mode, not the
one with the smallest loss probability. -/
theorem C1_counterexample :
    (GroupRateAdaptation c1Pdr c1State).GroupTxMode = OfdmRate54Mbps ∧
    OfdmRate6Mbps ∈ (afterModeInit c1State).basicModes ∧
    1 - c1Pdr OfdmRate6Mbps (dbToLinear (minRssiOf c1State.infos)) (nbitsOf OfdmRate6Mbps)
      < c1State.per ∧
    1 - c1Pdr OfdmRate6Mbps (dbToLinear (minRssiOf c1State.infos)) (nbitsOf OfdmRate6Mbps)
      < 1 - c1Pdr OfdmRate54Mbps (dbToLinear (minRssiOf c1State.infos)) (nbitsOf OfdmRate54Mbps) ∧
    OfdmRate54Mbps ≠ OfdmRate6Mbps := by
  refine ⟨?_, ?_, ?_, ?_, by decide⟩
  · have h0 : c1State.infos ≠ [] := by simp [c1State, freshManagerState]
    rw [GroupRateAdaptation_nonempty c1Pdr c1State h0, if_pos c1State_snr,
      stateAfterMin_type]
    norm_num [c1State, freshManagerState, typeZeroBody, typeZeroFold, stateAfterMin,
      afterModeInit, AddOfdmRate, GetBasicMode, c1Pdr, OfdmRate6Mbps, OfdmRate9Mbps,
      OfdmRate12Mbps, OfdmRate18Mbps, OfdmRate24Mbps, OfdmRate36Mbps, OfdmRate48Mbps,
      OfdmRate54Mbps]
  · simp [afterModeInit, AddOfdmRate, c1State, freshManagerState]
  · norm_num [c1Pdr, c1State, freshManagerState, OfdmRate6Mbps]
  · norm_num [c1Pdr, OfdmRate6Mbps, OfdmRate54Mbps]

/-- Claim C1 amended: for type-0 adaptation with a non-empty sample set,
linear minimum SNR above 1 and a threshold at most 1 (the default is
0.001), the recomputation selects the last catalog mode in registration
order whose loss probability is strictly below perThreshold - every
qualifying candidate overwrites the previous selection, regardless of
relative loss probability - and falls back to catalog mode index 0 when no
candidate qualifies. -/
theorem C1_type0_selects_last_qualifying (pdr : WifiMode → ℝ → Nat → ℚ)
    (s : SbraWifiManagerState) (h0 : s.infos ≠ []) (htype : s.type = 0)
    (hsnr : 1 < dbToLinear (minRssiOf s.infos)) (hper : s.per ≤ 1) :
    ((afterModeInit s).basicModes.filter
        (typeZeroQualifies pdr (dbToLinear (minRssiOf s.infos)) s.per) = [] →
      (GroupRateAdaptation pdr s).GroupTxMode = GetBasicMode (afterModeInit s) 0) ∧
    (∀ m, ((afterModeInit s).basicModes.filter
        (typeZeroQualifies pdr (dbToLinear (minRssiOf s.infos)) s.per)).getLast? = some m →
      (GroupRateAdaptation pdr s).GroupTxMode = m) := by
  have hkey : GroupRateAdaptation pdr s =
      typeZeroBody pdr (dbToLinear (minRssiOf s.infos)) (stateAfterMin s) := by
    rw [GroupRateAdaptation_nonempty pdr s h0, if_pos hsnr, stateAfterMin_type, htype]
    simp
  have hper' : (stateAfterMin s).per ≤ 1 := by rw [stateAfterMin_per]; exact hper
  have hbasic : (stateAfterMin s).basicModes = (afterModeInit s).basicModes := rfl
  have hget : GetBasicMode (stateAfterMin s) 0 = GetBasicMode (afterModeInit s) 0 := rfl
  rcases typeZeroBody_GroupTxMode pdr (dbToLinear (minRssiOf s.infos)) (stateAfterMin s) hper'
    with ⟨hfil, heq⟩ | ⟨m, hlast, heq⟩
  · rw [stateAfterMin_per, hbasic] at hfil
    constructor
    · intro _
      rw [hkey, heq, hget]
    · intro m hm
      rw [hfil] at hm
      exact absurd hm (by simp)
  · rw [stateAfterMin_per, hbasic] at hlast
    constructor
    · intro hnil
      rw [hnil] at hlast
      exact absurd hlast (by simp)
    · intro m' hm'
      rw [hlast] at hm'
      obtain rfl : m = m' := by injection hm'
      rw [hkey, heq]

/-- Claim C1 amended, witness: at the counterexample input the last
qualifying catalog mode is OfdmRate54Mbps and it is selected. -/
theorem C1_witness :
    (GroupRateAdaptation c1Pdr c1State).GroupTxMode = OfdmRate54Mbps := by
  have h := C1_type0_selects_last_qualifying c1Pdr c1State
    (by simp [c1State, freshManagerState]) rfl c1State_snr
    (by norm_num [c1State, freshManagerState])
  refine h.2 OfdmRate54Mbps ?_
  norm_num [afterModeInit, AddOfdmRate, c1State, freshManagerState, typeZeroQualifies,
    c1Pdr, OfdmRate6Mbps, OfdmRate9Mbps, OfdmRate12Mbps, OfdmRate18Mbps,
    OfdmRate24Mbps, OfdmRate36Mbps, OfdmRate48Mbps, OfdmRate54Mbps]

/-- Expected throughput PdrRate = Pdr * Rate * 0.000001 exactly as the
type-1 loop computes it, at the fixed 1086-byte test frame. -/
def pdrRateOf (pdr : WifiMode → ℝ → Nat → ℚ) (lin : ℝ) (m : WifiMode) : ℚ :=
  pdr m lin (1086 * 8) * (m.dataRate : ℚ) * (1 / 1000000)

theorem typeOneFold_spec (pdr : WifiMode → ℝ → Nat → ℚ) (lin : ℝ)
    (l : List WifiMode) (cm : WifiMode) (cb : ℚ) :
    (typeOneFold pdr lin l (cm, cb) = (cm, cb) ∧
      ∀ x ∈ l, pdrRateOf pdr lin x ≤ cb) ∨
    (∃ m b l1 l2, typeOneFold pdr lin l (cm, cb) = (m, b) ∧
      b = pdrRateOf pdr lin m ∧ l = l1 ++ m :: l2 ∧ cb < b ∧
      (∀ x ∈ l1, pdrRateOf pdr lin x < b) ∧
      (∀ x ∈ l2, pdrRateOf pdr lin x ≤ b)) := by
  induction l generalizing cm cb with
  | nil => exact Or.inl ⟨rfl, by simp⟩
  | cons mode ms ih =>
    have hstep : typeOneFold pdr lin (mode :: ms) (cm, cb) =
        typeOneFold pdr lin ms
          (if cb < pdrRateOf pdr lin mode then (mode, pdrRateOf pdr lin mode) else (cm, cb)) := by
      simp only [typeOneFold, pdrRateOf]
    by_cases h : cb < pdrRateOf pdr lin mode
    · rw [hstep, if_pos h]
      rcases ih mode (pdrRateOf pdr lin mode) with ⟨heq, hall⟩ | ⟨m, b, l1, l2, heq, hb, hsplit, hlt, hpre, hsuf⟩
      · refine Or.inr ⟨mode, pdrRateOf pdr lin mode, [], ms, heq, rfl, by simp, h, by simp, hall⟩
      · refine Or.inr ⟨m, b, mode :: l1, l2, heq, hb, by rw [hsplit]; rfl, lt_trans h hlt, ?_, hsuf⟩
        intro x hx
        rcases List.mem_cons.mp hx with hx | hx
        · rw [hx]; exact hlt
        · exact hpre x hx
    · rw [hstep, if_neg h]
      rcases ih cm cb with ⟨heq, hall⟩ | ⟨m, b, l1, l2, heq, hb, hsplit, hlt, hpre, hsuf⟩
      · refine Or.inl ⟨heq, ?_⟩
        intro x hx
        rcases List.mem_cons.mp hx with hx | hx
        · rw [hx]; exact le_of_not_lt h
        · exact hall x hx
      · refine Or.inr ⟨m, b, mode :: l1, l2, heq, hb, by rw [hsplit]; rfl, hlt, ?_, hsuf⟩
        intro x hx
        rcases List.mem_cons.mp hx with hx | hx
        · rw [hx]; exact lt_of_le_of_lt (le_of_not_lt h) hlt
        · exact hpre x hx

theorem typeOneBody_GroupTxMode (pdr : WifiMode → ℝ → Nat → ℚ) (lin : ℝ)
    (s : SbraWifiManagerState) :
    ((∀ x ∈ s.basicModes, pdrRateOf pdr lin x ≤ 0) →
      (typeOneBody pdr lin s).GroupTxMode = GetBasicMode s 0) ∧
    ((∃ x ∈ s.basicModes, 0 < pdrRateOf pdr lin x) →
      ∃ l1 l2, s.basicModes = l1 ++ (typeOneBody pdr lin s).GroupTxMode :: l2 ∧
        (∀ x ∈ l1, pdrRateOf pdr lin x <
          pdrRateOf pdr lin (typeOneBody pdr lin s).GroupTxMode) ∧
        (∀ x ∈ l2, pdrRateOf pdr lin x ≤
          pdrRateOf pdr lin (typeOneBody pdr lin s).GroupTxMode)) := by
  rcases typeOneFold_spec pdr lin s.basicModes s.GroupTxMode 0 with
    ⟨heq, hall⟩ | ⟨m, b, l1, l2, heq, hb, hsplit, hlt, hpre, hsuf⟩
  · have hres : (typeOneBody pdr lin s).GroupTxMode = GetBasicMode s 0 := by
      simp only [typeOneBody, heq]
      norm_num [GetBasicMode]
    constructor
    · intro _
      exact hres
    · rintro ⟨x, hx, hpos⟩
      exact absurd (hall x hx) (not_le.mpr hpos)
  · have hbne : ¬ (b = 0) := by
      intro hEq
      rw [hEq] at hlt
      exact absurd hlt (by norm_num)
    have hres : (typeOneBody pdr lin s).GroupTxMode = m := by
      simp only [typeOneBody, heq]
      simp [hbne]
    constructor
    · intro hall
      have hm : m ∈ s.basicModes := by
        rw [hsplit]
        exact List.mem_append_right l1 (List.mem_cons_self m l2)
      have := hall m hm
      rw [← hb] at this
      exact absurd hlt (not_lt.mpr this)
    · intro _
      refine ⟨l1, l2, ?_, ?_, ?_⟩
      · rw [hres]; exact hsplit
      · rw [hres, ← hb]; exact hpre
      · rw [hres, ← hb]; exact hsuf

/-- Claim C7: for type-1 adaptation with a non-empty sample set and linear
minimum SNR above 1, the recomputation selects the catalog mode maximizing
delivery probability times data rate (computed at the linear SNR for a
1086-byte frame), the first-found mode winning ties - every mode before the
selected one is strictly worse, every mode after is at most as good - and
falls back to catalog mode index 0 when the best expected throughput is
zero (no mode has positive expected throughput). -/
theorem C7_type1_max_throughput (pdr : WifiMode → ℝ → Nat → ℚ)
    (s : SbraWifiManagerState) (h0 : s.infos ≠ []) (htype : s.type = 1)
    (hsnr : 1 < dbToLinear (minRssiOf s.infos)) :
    ((∀ x ∈ (afterModeInit s).basicModes,
        pdrRateOf pdr (dbToLinear (minRssiOf s.infos)) x ≤ 0) →
      (GroupRateAdaptation pdr s).GroupTxMode = GetBasicMode (afterModeInit s) 0) ∧
    ((∃ x ∈ (afterModeInit s).basicModes,
        0 < pdrRateOf pdr (dbToLinear (minRssiOf s.infos)) x) →
      ∃ l1 l2, (afterModeInit s).basicModes =
          l1 ++ (GroupRateAdaptation pdr s).GroupTxMode :: l2 ∧
        (∀ x ∈ l1, pdrRateOf pdr (dbToLinear (minRssiOf s.infos)) x <
          pdrRateOf pdr (dbToLinear (minRssiOf s.infos)) (GroupRateAdaptation pdr s).GroupTxMode) ∧
        (∀ x ∈ l2, pdrRateOf pdr (dbToLinear (minRssiOf s.infos)) x ≤
          pdrRateOf pdr (dbToLinear (minRssiOf s.infos)) (GroupRateAdaptation pdr s).GroupTxMode)) := by
  have hkey : GroupRateAdaptation pdr s =
      typeOneBody pdr (dbToLinear (minRssiOf s.infos)) (stateAfterMin s) := by
    rw [GroupRateAdaptation_nonempty pdr s h0, if_pos hsnr, stateAfterMin_type, htype]
    simp
  have hbasic : (stateAfterMin s).basicModes = (afterModeInit s).basicModes := rfl
  have hget : GetBasicMode (stateAfterMin s) 0 = GetBasicMode (afterModeInit s) 0 := rfl
  have h := typeOneBody_GroupTxMode pdr (dbToLinear (minRssiOf s.infos)) (stateAfterMin s)
  rw [hbasic, hget, ← hkey] at h
  exact h

/-- Claim C7 witness delivery model: OfdmRate24Mbps delivers with
probability 1, every other mode with probability 1/100, so the expected
throughput of OfdmRate24Mbps (24) strictly dominates all others (at most
0.54). -/
def c7Pdr : WifiMode → ℝ → Nat → ℚ := fun m _ _ =>
  if m.dataRate = 24000000 then 1 else 1/100

/-- Claim C7 witness state: one sample at 20 dB, type 1. -/
def c7State : SbraWifiManagerState :=
  { freshManagerState with infos := [⟨5, ⟨20, 0, 0, 0⟩⟩], type := 1 }

/-- Claim C7 witness: at the concrete type-1 input some catalog mode has
positive expected throughput, and the selected mode dominates the catalog
(strictly before it, weakly after it). -/
theorem C7_witness :
    ∃ l1 l2, (afterModeInit c7State).basicModes =
        l1 ++ (GroupRateAdaptation c7Pdr c7State).GroupTxMode :: l2 ∧
      (∀ x ∈ l1, pdrRateOf c7Pdr (dbToLinear (minRssiOf c7State.infos)) x <
        pdrRateOf c7Pdr (dbToLinear (minRssiOf c7State.infos))
          (GroupRateAdaptation c7Pdr c7State).GroupTxMode) ∧
      (∀ x ∈ l2, pdrRateOf c7Pdr (dbToLinear (minRssiOf c7State.infos)) x ≤
        pdrRateOf c7Pdr (dbToLinear (minRssiOf c7State.infos))
          (GroupRateAdaptation c7Pdr c7State).GroupTxMode) := by
  have h := C7_type1_max_throughput c7Pdr c7State
    (by simp [c7State, freshManagerState]) rfl
    (by rw [one_lt_dbToLinear_iff]; norm_num [minRssiOf, c7State, freshManagerState])
  refine h.2 ⟨OfdmRate24Mbps, ?_, ?_⟩
  · simp [afterModeInit, AddOfdmRate, c7State, freshManagerState]
  · norm_num [pdrRateOf, c7Pdr, OfdmRate24Mbps]

theorem rtsFold_spec (thresholds : List (ℚ × WifiMode)) (lastSnr : ℚ)
    (l : List WifiMode) (t0 : ℚ) (m0 : WifiMode) :
    (rtsFold thresholds lastSnr l (t0, m0) = (t0, m0) ∧
      ∀ x ∈ l, GetSnrThreshold thresholds x < lastSnr →
        GetSnrThreshold thresholds x ≤ t0) ∨
    (∃ t m, rtsFold thresholds lastSnr l (t0, m0) = (t, m) ∧ m ∈ l ∧
      t = GetSnrThreshold thresholds m ∧ t0 < t ∧ t < lastSnr ∧
      ∀ x ∈ l, GetSnrThreshold thresholds x < lastSnr →
        GetSnrThreshold thresholds x ≤ t) := by
  induction l generalizing t0 m0 with
  | nil => exact Or.inl ⟨rfl, by simp⟩
  | cons mode ms ih =>
    have hstep : rtsFold thresholds lastSnr (mode :: ms) (t0, m0) =
        rtsFold thresholds lastSnr ms
          (if GetSnrThreshold thresholds mode > t0 ∧ GetSnrThreshold thresholds mode < lastSnr
           then (GetSnrThreshold thresholds mode, mode) else (t0, m0)) := by
      simp only [rtsFold]
    by_cases hc : GetSnrThreshold thresholds mode > t0 ∧ GetSnrThreshold thresholds mode < lastSnr
    · rw [hstep, if_pos hc]
      rcases ih (GetSnrThreshold thresholds mode) mode with
        ⟨heq, hall⟩ | ⟨t, m, heq, hm, ht, hlt, hsnr, hall⟩
      · refine Or.inr ⟨GetSnrThreshold thresholds mode, mode, heq,
          List.mem_cons_self mode ms, rfl, hc.1, hc.2, ?_⟩
        intro x hx hxsnr
        rcases List.mem_cons.mp hx with hx | hx
        · rw [hx]
        · exact hall x hx hxsnr
      · refine Or.inr ⟨t, m, heq, List.mem_cons_of_mem mode hm, ht,
          lt_trans hc.1 hlt, hsnr, ?_⟩
        intro x hx hxsnr
        rcases List.mem_cons.mp hx with hx | hx
        · rw [hx]; exact le_of_lt hlt
        · exact hall x hx hxsnr
    · rw [hstep, if_neg hc]
      have hmode : GetSnrThreshold thresholds mode < lastSnr →
          GetSnrThreshold thresholds mode ≤ t0 := by
        intro hxsnr
        by_contra hgt
        exact hc ⟨lt_of_not_le hgt, hxsnr⟩
      rcases ih t0 m0 with ⟨heq, hall⟩ | ⟨t, m, heq, hm, ht, hlt, hsnr, hall⟩
      · refine Or.inl ⟨heq, ?_⟩
        intro x hx hxsnr
        rcases List.mem_cons.mp hx with hx | hx
        · rw [hx] at hxsnr ⊢; exact hmode hxsnr
        · exact hall x hx hxsnr
      · refine Or.inr ⟨t, m, heq, List.mem_cons_of_mem mode hm, ht, hlt, hsnr, ?_⟩
        intro x hx hxsnr
        rcases List.mem_cons.mp hx with hx | hx
        · rw [hx] at hxsnr ⊢
          exact le_of_lt (lt_of_le_of_lt (hmode hxsnr) hlt)
        · exact hall x hx hxsnr

/-- Whether a basic mode qualifies for RTS selection: threshold strictly
above 0 (the loop's initial maxThreshold) and strictly below the station's
lastSnr. -/
def rtsQualifies (thresholds : List (ℚ × WifiMode)) (lastSnr : ℚ)
    (m : WifiMode) : Bool :=
  decide (0 < GetSnrThreshold thresholds m ∧ GetSnrThreshold thresholds m < lastSnr)

/-- Claim C9: RTS mode selection iterates only the basic mode set and
returns the mode whose SNR threshold is the highest among those strictly
below the station's lastSnr (and strictly above 0); when no basic mode
qualifies it returns the configured default mode. -/
theorem C9_rts_selection (s : SbraWifiManagerState)
    (station : SbraWifiRemoteStation) :
    (s.basicModes.filter (rtsQualifies s.thresholds station.lastSnr) = [] →
      DoGetRtsTxVector s station = s.defaultMode) ∧
    (s.basicModes.filter (rtsQualifies s.thresholds station.lastSnr) ≠ [] →
      DoGetRtsTxVector s station ∈ s.basicModes ∧
      0 < GetSnrThreshold s.thresholds (DoGetRtsTxVector s station) ∧
      GetSnrThreshold s.thresholds (DoGetRtsTxVector s station) < station.lastSnr ∧
      ∀ x ∈ s.basicModes, GetSnrThreshold s.thresholds x < station.lastSnr →
        GetSnrThreshold s.thresholds x ≤
          GetSnrThreshold s.thresholds (DoGetRtsTxVector s station)) := by
  rcases rtsFold_spec s.thresholds station.lastSnr s.basicModes 0 s.defaultMode with
    ⟨heq, hall⟩ | ⟨t, m, heq, hm, ht, hlt, hsnr, hall⟩
  · have hres : DoGetRtsTxVector s station = s.defaultMode := by
      unfold DoGetRtsTxVector
      rw [heq]
    constructor
    · intro _
      exact hres
    · intro hne
      rcases List.exists_mem_of_ne_nil _ hne with ⟨q, hq⟩
      have hqmem := (List.mem_filter.mp hq).1
      have hqual := (List.mem_filter.mp hq).2
      have hq' : 0 < GetSnrThreshold s.thresholds q ∧
          GetSnrThreshold s.thresholds q < station.lastSnr := by
        simpa [rtsQualifies] using hqual
      exact absurd (hall q hqmem hq'.2) (not_le.mpr hq'.1)
  · have hres : DoGetRtsTxVector s station = m := by
      unfold DoGetRtsTxVector
      rw [heq]
    constructor
    · intro hnil
      have hqual : rtsQualifies s.thresholds station.lastSnr m = true := by
        simp only [rtsQualifies, decide_eq_true_eq]
        exact ⟨ht ▸ hlt, ht ▸ hsnr⟩
      have : m ∈ s.basicModes.filter (rtsQualifies s.thresholds station.lastSnr) :=
        List.mem_filter.mpr ⟨hm, hqual⟩
      rw [hnil] at this
      exact absurd this (List.not_mem_nil m)
    · intro _
      rw [hres]
      exact ⟨hm, ht ▸ hlt, ht ▸ hsnr, fun x hx hxsnr => ht ▸ hall x hx hxsnr⟩

/-- Claim C9 witness state: three basic modes with thresholds 2, 5 and 9. -/
def c9State : SbraWifiManagerState :=
  { freshManagerState with
      basicModes := [OfdmRate6Mbps, OfdmRate12Mbps, OfdmRate24Mbps],
      thresholds := [(2, OfdmRate6Mbps), (5, OfdmRate12Mbps), (9, OfdmRate24Mbps)],
      defaultMode := OfdmRate6Mbps }

/-- Claim C9 witness station: lastSnr 7, so thresholds 2 and 5 qualify. -/
def c9Station : SbraWifiRemoteStation := ⟨7⟩

/-- Claim C9 witness: with a non-empty qualifying set, the selected RTS mode
is a basic mode with positive threshold below lastSnr dominating every
basic-mode threshold below lastSnr. -/
theorem C9_witness :
    DoGetRtsTxVector c9State c9Station ∈ c9State.basicModes ∧
    0 < GetSnrThreshold c9State.thresholds (DoGetRtsTxVector c9State c9Station) ∧
    GetSnrThreshold c9State.thresholds (DoGetRtsTxVector c9State c9Station) <
      c9Station.lastSnr ∧
    ∀ x ∈ c9State.basicModes,
      GetSnrThreshold c9State.thresholds x < c9Station.lastSnr →
        GetSnrThreshold c9State.thresholds x ≤
          GetSnrThreshold c9State.thresholds (DoGetRtsTxVector c9State c9Station) :=
  (C9_rts_selection c9State c9Station).2 (by
    have hfil : c9State.basicModes.filter
        (rtsQualifies c9State.thresholds c9Station.lastSnr) =
        [OfdmRate6Mbps, OfdmRate12Mbps] := by
      norm_num [c9State, freshManagerState, rtsQualifies, GetSnrThreshold,
        OfdmRate6Mbps, OfdmRate12Mbps, OfdmRate24Mbps, c9Station]
    rw [hfil]
    exact List.cons_ne_nil _ _)

/-- State of AdhocWifiMac relevant to feedback capture: the shared
m_initialize flag, the captured m_srcAddress, whether the SendFeedback
chain has been started, the last decoded m_rxInfoSet, and the attached
SbraWifiManager. -/
structure MacState where
  initFlag : Bool
  srcAddress : Nat
  feedbackStarted : Bool
  rxInfoSet : RxInfo
  manager : SbraWifiManagerState

/-- The frame classes AdhocWifiMac::Receive distinguishes: QoS A-MSDU data,
plain data (group or unicast by the receiver address), feedback frames
carrying a decoded payload, and anything else handed to
RegularWifiMac::Receive. -/
inductive FrameKind
  | qosAmsduData
  | plainData
  | feedback (info : RxInfo)
  | mgmt

/-- A received frame: transmitter address (Addr2), whether the receiver
address (Addr1) is a group address, and the frame class. -/
structure Frame where
  src : Nat
  toGroup : Bool
  kind : FrameKind

/-- AdhocWifiMac state after construction: m_initialize false. -/
def initMacState : MacState :=
  { initFlag := false, srcAddress := 0, feedbackStarted := false,
    rxInfoSet := defaultRxInfo, manager := freshManagerState }

/-- AdhocWifiMac::Receive (lines 220-274): A-MSDU data is deaggregated and
forwarded (no capture state change); group-addressed plain data triggers,
only while m_initialize is false, the capture of the sender as
m_srcAddress, sets m_initialize and invokes SendFeedback (which then
reschedules itself periodically - modelled by feedbackStarted); unicast
data is forwarded; a feedback frame stores the decoded payload in
m_rxInfoSet and calls SbraWifiManager::UpdateInfo; other frames go to the
parent class. -/
def Receive (s : MacState) (f : Frame) : MacState :=
  match f.kind with
  | .qosAmsduData => s
  | .plainData =>
    if f.toGroup then
      if s.initFlag = false then
        { s with srcAddress := f.src, initFlag := true, feedbackStarted := true }
      else s
    else s
  | .feedback info =>
    { s with rxInfoSet := info, manager := UpdateInfo s.manager f.src info }
  | .mgmt => s

/-- The one-time initialization block of AdhocWifiMac::Enqueue (lines
189-194): it shares the same m_initialize flag the receive path uses for
feedback capture. -/
def EnqueueInit (s : MacState) : MacState :=
  if s.initFlag = false then { s with initFlag := true } else s

/-- Whether a frame is a group-addressed plain data frame. -/
def isGroupData (f : Frame) : Bool :=
  match f.kind with
  | .plainData => f.toGroup
  | _ => false

theorem Receive_nonGroup (s : MacState) (f : Frame)
    (h : isGroupData f = false) :
    (Receive s f).initFlag = s.initFlag ∧
    (Receive s f).srcAddress = s.srcAddress ∧
    (Receive s f).feedbackStarted = s.feedbackStarted := by
  cases f with
  | mk src toGroup kind =>
    cases kind with
    | qosAmsduData => exact ⟨rfl, rfl, rfl⟩
    | plainData =>
      have hg : toGroup = false := by simpa [isGroupData] using h
      simp [Receive, hg]
    | feedback info => exact ⟨rfl, rfl, rfl⟩
    | mgmt => exact ⟨rfl, rfl, rfl⟩

theorem Receive_initialized (s : MacState) (f : Frame)
    (h : s.initFlag = true) :
    (Receive s f).initFlag = true ∧
    (Receive s f).srcAddress = s.srcAddress ∧
    (Receive s f).feedbackStarted = s.feedbackStarted := by
  cases f with
  | mk src toGroup kind =>
    cases kind with
    | qosAmsduData => exact ⟨h, rfl, rfl⟩
    | plainData =>
      by_cases hg : toGroup = true
      · simp [Receive, hg, h]
      · simp only [Bool.not_eq_true] at hg
        simp [Receive, hg, h]
    | feedback info => exact ⟨h, rfl, rfl⟩
    | mgmt => exact ⟨h, rfl, rfl⟩

theorem foldl_Receive_nonGroup (l : List Frame) (s : MacState)
    (h : ∀ g ∈ l, isGroupData g = false) :
    (l.foldl Receive s).initFlag = s.initFlag ∧
    (l.foldl Receive s).srcAddress = s.srcAddress ∧
    (l.foldl Receive s).feedbackStarted = s.feedbackStarted := by
  induction l generalizing s with
  | nil => exact ⟨rfl, rfl, rfl⟩
  | cons g gs ih =>
    have hg := Receive_nonGroup s g (h g (List.mem_cons_self g gs))
    have ihs := ih (Receive s g) (fun x hx => h x (List.mem_cons_of_mem g hx))
    exact ⟨hg.1 ▸ ihs.1, hg.2.1 ▸ ihs.2.1, hg.2.2 ▸ ihs.2.2⟩

theorem foldl_Receive_initialized (l : List Frame) (s : MacState)
    (h : s.initFlag = true) :
    (l.foldl Receive s).initFlag = true ∧
    (l.foldl Receive s).srcAddress = s.srcAddress ∧
    (l.foldl Receive s).feedbackStarted = s.feedbackStarted := by
  induction l generalizing s with
  | nil => exact ⟨h, rfl, rfl⟩
  | cons g gs ih =>
    have hg := Receive_initialized s g h
    have ihs := ih (Receive s g) hg.1
    exact ⟨ihs.1, hg.2.1 ▸ ihs.2.1, hg.2.2 ▸ ihs.2.2⟩

/-- Claim C5: over any sequence of received frames, the first
group-addressed data frame captures its sender as the single feedback
destination and immediately starts the feedback transmission chain, and no
later received frame (group-addressed or otherwise, from any sender) ever
changes the captured destination or stops the chain. -/
theorem C5_first_group_capture (pre post : List Frame) (f : Frame)
    (hpre : ∀ g ∈ pre, isGroupData g = false) (hf : isGroupData f = true) :
    ((pre ++ f :: post).foldl Receive initMacState).srcAddress = f.src ∧
    ((pre ++ f :: post).foldl Receive initMacState).feedbackStarted = true ∧
    ((pre ++ f :: post).foldl Receive initMacState).initFlag = true := by
  rw [List.foldl_append, List.foldl_cons]
  have hpreState := foldl_Receive_nonGroup pre initMacState hpre
  have hinit : (pre.foldl Receive initMacState).initFlag = false := hpreState.1
  obtain ⟨src, toGroup, kind⟩ := f
  cases kind with
  | plainData =>
    have hg : toGroup = true := by simpa [isGroupData] using hf
    subst hg
    have hcap : Receive (pre.foldl Receive initMacState) ⟨src, true, .plainData⟩ =
        { pre.foldl Receive initMacState with
            srcAddress := src, initFlag := true, feedbackStarted := true } := by
      simp [Receive, hinit]
    rw [hcap]
    have hrest := foldl_Receive_initialized post
      { pre.foldl Receive initMacState with
          srcAddress := src, initFlag := true, feedbackStarted := true } rfl
    exact ⟨hrest.2.1, hrest.2.2, hrest.1⟩
  | qosAmsduData => simp [isGroupData] at hf
  | feedback info => simp [isGroupData] at hf
  | mgmt => simp [isGroupData] at hf

/-- Claim C5 witness frames: a unicast data frame from peer 3, then the
first group data frame from peer 7, then a group data frame from a distinct
peer 9. -/
def c5Unicast : Frame := ⟨3, false, .plainData⟩

/-- Claim C5 witness: first group-addressed data frame. -/
def c5Group1 : Frame := ⟨7, true, .plainData⟩

/-- Claim C5 witness: later group-addressed data frame from another peer. -/
def c5Group2 : Frame := ⟨9, true, .plainData⟩

/-- Claim C5 witness: peer 7 is captured and kept even after a group frame
from peer 9 arrives. -/
theorem C5_witness :
    (([c5Unicast] ++ c5Group1 :: [c5Group2]).foldl Receive initMacState).srcAddress =
      c5Group1.src ∧
    (([c5Unicast] ++ c5Group1 :: [c5Group2]).foldl Receive initMacState).feedbackStarted = true ∧
    (([c5Unicast] ++ c5Group1 :: [c5Group2]).foldl Receive initMacState).initFlag = true :=
  C5_first_group_capture [c5Unicast] [c5Group2] c5Group1
    (by intro g hg; simp at hg; rw [hg]; rfl) (by rfl)

end NS3
